import Mathlib

/-!
Shallow embedding of the Gmail-ingest pipeline (emailExtractor.ts,
jsonlReader.ts, processor.ts, config.ts) and proofs about it.

Strings are modelled as Lean `String` (a list of Unicode scalar values);
JavaScript strings are UTF-16 sequences, and the one place where the
difference could show (the `data.length % 4` padding computation on inputs
holding astral characters) is noted at the definition.  Optional / nullable
JavaScript fields become `Option`; JavaScript truthiness of a string value
(`undefined`, `null` and `""` are falsy) is the function `jsTruthy`.
-/

namespace GmailIngest

/-- ASCII lower-casing, character by character (`String.toLowerCase` of
JavaScript; the media types and header names compared in the source are
ASCII, where the two agree). -/
def lowerAscii (s : String) : String :=
  String.mk (s.data.map Char.toLower)

/-- `s.startsWith(pre)` on the scalar-value sequences. -/
def strStartsWith (s pre : String) : Bool :=
  pre.data.isPrefixOf s.data

/-- JavaScript truthiness of an optional string: `undefined` / `null` /
`""` are falsy; a non-empty string is truthy (and is the value used). -/
def jsTruthy : Option String → Option String
  | some s => if s = "" then none else some s
  | none => none

/-- `GmailHeader` from emailExtractor.ts: a (name, value) pair. -/
structure GmailHeader where
  name : String
  value : String

/-- `GmailBody` from emailExtractor.ts: optional size and optional
(nullable) base64url data string.  `none` covers both `undefined` and
`null`, which the source only ever inspects through truthiness. -/
structure GmailBody where
  size : Option Nat
  data : Option String

/-- `GmailPart` from emailExtractor.ts: a node of the recursive MIME part
tree.  The source declares `headers?: GmailHeader[]` and `parts?:
GmailPart[]`; an absent array is modelled as `[]`, which is observationally
equal here because the source reads them only via `|| []` / `find` /
iteration, and in JavaScript an empty array is truthy. -/
inductive GmailPart where
  | mk (mimeType : Option String) (filename : Option String)
      (headers : List GmailHeader) (body : Option GmailBody)
      (parts : List GmailPart)

def GmailPart.mimeType : GmailPart → Option String
  | .mk m _ _ _ _ => m

def GmailPart.filename : GmailPart → Option String
  | .mk _ f _ _ _ => f

def GmailPart.headers : GmailPart → List GmailHeader
  | .mk _ _ h _ _ => h

def GmailPart.body : GmailPart → Option GmailBody
  | .mk _ _ _ b _ => b

def GmailPart.parts : GmailPart → List GmailPart
  | .mk _ _ _ _ p => p

/-- `GmailMessage` from emailExtractor.ts.  The fields `message` and
`messageId` are not declared in the TypeScript interface but are read by
processor.ts through `(record as any).message?.id` and
`(record as any).messageId`, so the record model carries them. -/
inductive GmailMessage where
  | mk (id : Option String) (data : Option GmailMessage)
      (airbyteData : Option GmailMessage) (threadId : Option String)
      (payload : Option GmailPart) (snippet : Option String)
      (message : Option GmailMessage) (messageId : Option String)

def GmailMessage.id : GmailMessage → Option String
  | .mk i _ _ _ _ _ _ _ => i

def GmailMessage.data : GmailMessage → Option GmailMessage
  | .mk _ d _ _ _ _ _ _ => d

def GmailMessage._airbyte_data : GmailMessage → Option GmailMessage
  | .mk _ _ a _ _ _ _ _ => a

def GmailMessage.threadId : GmailMessage → Option String
  | .mk _ _ _ t _ _ _ _ => t

def GmailMessage.payload : GmailMessage → Option GmailPart
  | .mk _ _ _ _ p _ _ _ => p

def GmailMessage.snippet : GmailMessage → Option String
  | .mk _ _ _ _ _ s _ _ => s

def GmailMessage.message : GmailMessage → Option GmailMessage
  | .mk _ _ _ _ _ _ m _ => m

def GmailMessage.messageId : GmailMessage → Option String
  | .mk _ _ _ _ _ _ _ mi => mi

/-!
### Base64url decoding (`base64UrlDecode`, emailExtractor.ts lines 30-33)

The source is
`Buffer.from(padded, "base64").toString("utf8")` after substituting the
URL-safe characters back and appending `(4 - (data.length % 4)) % 4`
padding characters.  Neither Node call can throw:

* `Buffer.from(s, "base64")` skips every character that is not in the
  standard base64 alphabet (including `=`); after filtering, each complete
  group of 4 sextets yields 3 bytes, a trailing group of 3 sextets yields
  2 bytes, of 2 sextets 1 byte, and a single trailing sextet yields
  nothing.
* `buffer.toString("utf8")` decodes with the WHATWG replacement policy:
  every maximal invalid subsequence becomes U+FFFD; it never throws.

So the source function is total: it has no failure path at all.
-/

/-- Value of a character in the standard base64 alphabet, `none` when the
character is outside the alphabet (Node skips such characters). -/
def b64Val (c : Char) : Option Nat :=
  let n := c.toNat
  if 65 ≤ n && n ≤ 90 then some (n - 65)
  else if 97 ≤ n && n ≤ 122 then some (n - 97 + 26)
  else if 48 ≤ n && n ≤ 57 then some (n - 48 + 52)
  else if c = '+' then some 62
  else if c = '/' then some 63
  else none

/-- Reassemble bytes from 6-bit values the way Node does: groups of 4
give 3 bytes, a trailing 3 give 2, a trailing 2 give 1, a lone trailing
value gives nothing. -/
def sextetsToBytes : List Nat → List Nat
  | a :: b :: c :: d :: rest =>
      (a * 4 + b / 16) :: ((b % 16) * 16 + c / 4) :: ((c % 4) * 64 + d)
        :: sextetsToBytes rest
  | [a, b, c] => [a * 4 + b / 16, (b % 16) * 16 + c / 4]
  | [a, b] => [a * 4 + b / 16]
  | _ => []

/-- `Buffer.from(s, "base64")` as a byte list: non-alphabet characters
(including `=`) are skipped, then sextets are packed into bytes. -/
def nodeBase64Bytes (s : String) : List Nat :=
  sextetsToBytes (s.data.filterMap b64Val)

/-- Classify a UTF-8 lead byte per the WHATWG decoder: (number of
continuation bytes, lower bound for the first continuation byte, upper
bound for it, initial code point accumulator); `(0, _, _, _)` marks an
invalid lead byte. -/
def utf8Lead (b : Nat) : Nat × Nat × Nat × Nat :=
  if 194 ≤ b && b ≤ 223 then (1, 128, 191, b % 32)
  else if b = 224 then (2, 160, 191, 0)
  else if 225 ≤ b && b ≤ 236 then (2, 128, 191, b % 16)
  else if b = 237 then (2, 128, 159, 13)
  else if 238 ≤ b && b ≤ 239 then (2, 128, 191, b % 16)
  else if b = 240 then (3, 144, 191, 0)
  else if 241 ≤ b && b ≤ 243 then (3, 128, 191, b % 8)
  else if b = 244 then (3, 128, 143, 4)
  else (0, 0, 0, 0)

/-- Pending state of the streaming WHATWG UTF-8 decoder: how many
continuation bytes are still needed, the admissible range [lo, hi] for
the next byte, and the code point accumulated so far. -/
structure Utf8State where
  need : Nat
  lo : Nat
  hi : Nat
  cp : Nat
deriving Repr, DecidableEq

/-- The pending state opened by a non-ASCII lead byte, `none` when the
byte cannot start a sequence. -/
def utf8LeadState (b : Nat) : Option Utf8State :=
  let q := utf8Lead b
  if q.1 = 0 then none else some { need := q.1, lo := q.2.1, hi := q.2.2.1, cp := q.2.2.2 }

/-- Processing one byte with no pending sequence: ASCII is emitted
directly, a valid lead byte opens a pending state, anything else is one
replacement character. -/
def utf8LeadEmit (b : Nat) : Option Utf8State × List Char :=
  if b ≤ 127 then (none, [Char.ofNat b])
  else
    match utf8LeadState b with
    | some st => (some st, [])
    | none => (none, [Char.ofNat 65533])

/-- One step of the WHATWG decoder.  An out-of-range byte inside a
sequence emits one replacement character and is then reprocessed as a
fresh lead byte (it is not consumed by the failed sequence). -/
def utf8Step : Option Utf8State → Nat → Option Utf8State × List Char
  | none, b => utf8LeadEmit b
  | some st, b =>
    if st.lo ≤ b && b ≤ st.hi then
      let cp := st.cp * 64 + (b - 128)
      if st.need = 1 then (none, [Char.ofNat cp])
      else (some { need := st.need - 1, lo := 128, hi := 191, cp := cp }, [])
    else
      let r := utf8LeadEmit b
      (r.1, Char.ofNat 65533 :: r.2)

/-- Run the decoder over the remaining bytes; a sequence still pending at
the end of input is one replacement character. -/
def utf8Run : Option Utf8State → List Nat → List Char
  | some _, [] => [Char.ofNat 65533]
  | none, [] => []
  | st, b :: bs =>
    let r := utf8Step st b
    r.2 ++ utf8Run r.1 bs

/-- `buffer.toString("utf8")`: WHATWG UTF-8 decoding with replacement.
Every maximal invalid subsequence becomes one U+FFFD; it never fails. -/
def utf8DecodeReplace (l : List Nat) : List Char :=
  utf8Run none l

/-- Strict UTF-8 validity checking (used only by the spec-modelled
decoder of §4.1 of the spec, which demands failure on invalid UTF-8):
the pending state is (need, lo, hi); any out-of-range byte or a sequence
left pending at the end makes the input invalid. -/
def utf8ValidFrom : Option (Nat × Nat × Nat) → List Nat → Bool
  | none, [] => true
  | some _, [] => false
  | none, b :: bs =>
    if b ≤ 127 then utf8ValidFrom none bs
    else
      match utf8LeadState b with
      | some st => utf8ValidFrom (some (st.need, st.lo, st.hi)) bs
      | none => false
  | some (need, lo, hi), b :: bs =>
    if lo ≤ b && b ≤ hi then
      if need = 1 then utf8ValidFrom none bs
      else utf8ValidFrom (some (need - 1, 128, 191)) bs
    else false

def utf8Valid (l : List Nat) : Bool :=
  utf8ValidFrom none l

/-- The two `replace` calls of base64UrlDecode: `-` becomes `+` and `_`
becomes `/` (global single-character replacement). -/
def substUrlChars (s : String) : String :=
  String.mk (s.data.map (fun c => if c = '-' then '+' else if c = '_' then '/' else c))

/-- `base64UrlDecode` from emailExtractor.ts lines 30-33.  The padding
count uses `data.length`, the length of the original string (equal to the
length after the character substitutions).  JavaScript `length` counts
UTF-16 units while Lean counts scalar values; the two agree on every
string without astral characters, in particular on all base64url input. -/
def base64UrlDecode (data : String) : String :=
  let padded := substUrlChars data ++ String.mk (List.replicate ((4 - data.length % 4) % 4) '=')
  String.mk (utf8DecodeReplace (nodeBase64Bytes padded))

/-!
### Body part selection (`findPart`, emailExtractor.ts lines 40-59)
-/

/-- Result type of `findPart`: the selected mime tag and the (still
encoded) body data. -/
structure FoundPart where
  mime : String
  data : String
deriving Repr, DecidableEq

/-- Truthiness of `part.body?.data`: present body, present data, and a
non-empty string. -/
def partBodyData (p : GmailPart) : Option String :=
  match p.body with
  | some b => jsTruthy b.data
  | none => none

/-- `part.mimeType?.toLowerCase().startsWith("multipart/")` — the whole
optional chain is `undefined` (falsy) when `mimeType` is absent. -/
def mimeIsMultipart (mt : Option String) : Bool :=
  match mt with
  | some m => strStartsWith (lowerAscii m) "multipart/"
  | none => false

/-- `parts.find((p) => (p.mimeType || "").toLowerCase() === wanted &&
p.body?.data)` followed by returning the found body data: the first direct
child whose media type is exactly `wanted` (case-insensitive) and whose
body data is truthy. -/
def findDirect (wanted : String) (parts : List GmailPart) : Option String :=
  match parts.find? (fun p => (lowerAscii (p.mimeType.getD "") == wanted) && (partBodyData p).isSome) with
  | some p => partBodyData p
  | none => none

mutual
/-- The body of `findPart` (emailExtractor.ts lines 40-59) on a present
part.  Order of the source: leaf check first (non-multipart media type
with truthy inline body data, returned with mime
`part.mimeType || "text/plain"`), then among direct children a
`text/html` child (only when `preferHtml`), then a direct `text/plain`
child, then depth-first left-to-right recursion into the children. -/
def findPartGo : GmailPart → Bool → Option FoundPart
  | GmailPart.mk mt _fn _hd bd ps, preferHtml =>
    if mimeIsMultipart mt = false ∧ (jsTruthy (bd.bind GmailBody.data)).isSome then
      match jsTruthy (bd.bind GmailBody.data) with
      | some d => some { mime := (jsTruthy mt).getD "text/plain", data := d }
      | none => none
    else
      match (if preferHtml then findDirect "text/html" ps else none) with
      | some d => some { mime := "text/html", data := d }
      | none =>
        match findDirect "text/plain" ps with
        | some d => some { mime := "text/plain", data := d }
        | none => findFirst ps preferHtml
termination_by structural p _ => p

/-- The `for (const p of parts)` recursion loop at the end of `findPart`:
first non-null result wins. -/
def findFirst : List GmailPart → Bool → Option FoundPart
  | [], _ => none
  | p :: rest, preferHtml =>
    match findPartGo p preferHtml with
    | some r => some r
    | none => findFirst rest preferHtml
termination_by structural l _ => l
end

/-- `findPart` from emailExtractor.ts lines 40-59.  `none` input models
the `part: GmailPart | undefined` parameter being `undefined`
(`if (!part) return null`); every recursive call of the source passes a
present part, which is `findPartGo`. -/
def findPart : Option GmailPart → Bool → Option FoundPart
  | none, _ => none
  | some p, preferHtml => findPartGo p preferHtml

/-- `findHeader` from emailExtractor.ts lines 35-38: first header whose
name matches case-insensitively; its value, or `undefined`. -/
def findHeader (headers : List GmailHeader) (name : String) : Option String :=
  (headers.find? (fun hh => lowerAscii hh.name == lowerAscii name)).map GmailHeader.value

/-- `ExtractedEmail` from emailExtractor.ts lines 61-72. -/
structure ExtractedEmail where
  messageId : String
  subject : Option String
  «from» : Option String
  «to» : Option String
  cc : Option String
  bcc : Option String
  date : Option String
  bodyMime : String
  body : String
  snippet : Option String
deriving Repr, DecidableEq

/-- The envelope unwrapping of extractEmail line 75:
`msg._airbyte_data ?? msg.data ?? msg` (nullish coalescing — one level
only). -/
def coreOf (msg : GmailMessage) : GmailMessage :=
  (msg._airbyte_data).getD ((msg.data).getD msg)

/-- `part.mime.toLowerCase().includes("html")`. -/
def mimeHasHtml (mime : String) : Bool :=
  decide ("html".data <:+: (lowerAscii mime).data)

/-- `extractEmail` from emailExtractor.ts lines 74-97.  The two `throw`
statements become `Except.error` with the source message texts; the
snippet is taken from the original outer record, not from the unwrapped
core. -/
def extractEmail (msg : GmailMessage) : Except String ExtractedEmail :=
  let core := coreOf msg
  match jsTruthy core.id with
  | none => Except.error "Missing message id"
  | some mid =>
    let headers := (core.payload.map GmailPart.headers).getD []
    match findPart core.payload true with
    | none => Except.error "No body found"
    | some part =>
      let decoded := base64UrlDecode part.data
      let bodyMime := if mimeHasHtml part.mime then "text/html" else "text/plain"
      Except.ok
        { messageId := mid
          subject := findHeader headers "Subject"
          «from» := findHeader headers "From"
          «to» := findHeader headers "To"
          cc := findHeader headers "Cc"
          bcc := findHeader headers "Bcc"
          date := findHeader headers "Date"
          bodyMime := bodyMime
          body := decoded
          snippet := msg.snippet }

/-- `toEml` from emailExtractor.ts lines 99-115.  Each conditional entry
`email.f ? "Name: v" : null` is an `Option String`; `.filter(Boolean)`
drops the nulls (the kept entries are never the empty string, so Boolean
filtering equals dropping `none`).  Lines are joined with CRLF and the
body follows after a double CRLF. -/
def toEml (email : ExtractedEmail) : String :=
  let headers := String.intercalate "\r\n"
    (([(jsTruthy email.«from»).map (fun v => "From: " ++ v),
       (jsTruthy email.«to»).map (fun v => "To: " ++ v),
       (jsTruthy email.cc).map (fun v => "Cc: " ++ v),
       (jsTruthy email.bcc).map (fun v => "Bcc: " ++ v),
       (jsTruthy email.subject).map (fun v => "Subject: " ++ v),
       (jsTruthy email.date).map (fun v => "Date: " ++ v),
       some ("Message-ID: <" ++ email.messageId ++ "@gmail>"),
       some "MIME-Version: 1.0",
       some ("Content-Type: " ++ email.bodyMime ++ "; charset=\"UTF-8\"")] : List (Option String)).filterMap id)
  headers ++ "\r\n\r\n" ++ email.body

/-!
### JSONL streaming (`readJsonlFromS3`, jsonlReader.ts lines 590-607 of
the concatenated sources)

The async generator reads the object line by line (readline with
`crlfDelay: Infinity`, i.e. both LF and CRLF end a line), trims each
line, skips empty results, and yields `JSON.parse(trimmed)`; a parse
failure logs a warning naming the file key and the line is skipped.
`JSON.parse` is an external primitive, so the embedding is parameterized
by a parse function; the byte-stream/line-splitting layer is modelled as
the resulting list of lines.  The outcome of a run of the generator is
the ordered list of yielded records together with the ordered list of
warning lines. -/
/-- A JavaScript white-space or line-terminator character (the set the
`trim` method removes): tab, LF, VT, FF, CR, space, NBSP, Ogham space
mark, the en-quad..hair-space range, LS, PS, narrow no-break space,
medium mathematical space, ideographic space, and the BOM. -/
def jsWhite (c : Char) : Bool :=
  let n := c.toNat
  n = 9 || n = 10 || n = 11 || n = 12 || n = 13 || n = 32 || n = 160 ||
  n = 5760 || (8192 ≤ n && n ≤ 8202) || n = 8232 || n = 8233 ||
  n = 8239 || n = 8287 || n = 12288 || n = 65279

/-- `line.trim()`: strip the JavaScript white-space set from both ends. -/
def jsTrim (s : String) : String :=
  String.mk (((s.data.dropWhile jsWhite).reverse.dropWhile jsWhite).reverse)

def readJsonl {T : Type} (parse : String → Except String T) (key : String) :
    List String → List T × List String
  | [] => ([], [])
  | line :: rest =>
    let trimmed := jsTrim line
    if trimmed = "" then readJsonl parse key rest
    else
      match parse trimmed with
      | Except.ok r =>
        let p := readJsonl parse key rest
        (r :: p.1, p.2)
      | Except.error e =>
        let p := readJsonl parse key rest
        (p.1, ("Failed to parse JSONL line in " ++ key ++ ": " ++ e) :: p.2)

/-!
### The processor (processor.ts)
-/

/-- `AppConfig` from config.ts. -/
structure AppConfig where
  region : String
  bucket : String
  airbytePrefix : String
  messagesPrefix : String
  detailsPrefix : String
  rawFilesPrefix : String
  workspaceId : String
  connectorId : String

/-- `Counters` from processor.ts line 11. -/
structure Counters where
  processed : Nat
  created : Nat
  skipped : Nat
  failed : Nat
deriving Repr, DecidableEq

/-- The S3 bucket contents relevant to the pipeline, as a key/content
association list (later entries shadowed by earlier ones; keys written by
the run are distinct so shadowing never arises). -/
def Store := List (String × String)
deriving instance Repr, DecidableEq for Store

/-- The `exists` helper of processor.ts lines 13-22 restricted to its
normal outcomes: `HeadObject` succeeds (the key is present) or fails with
404 / NotFound (absent).  Other store faults are outside the pure model. -/
def existsKey (s : Store) (k : String) : Bool :=
  s.any (fun p => p.1 == k)

/-- `PutObject`: afterwards the key exists with the given content. -/
def putObject (s : Store) (k v : String) : Store :=
  (k, v) :: s

/-- The message-id chain of processor.ts lines 43-49:
`record.id || record._airbyte_data?.id || record.data?.id ||
record.message?.id || record.messageId || null`, with JavaScript `||`
falling through on `undefined` and on the empty string. -/
def procMsgId (r : GmailMessage) : Option String :=
  (jsTruthy r.id).orElse fun _ =>
  (jsTruthy (r._airbyte_data.bind GmailMessage.id)).orElse fun _ =>
  (jsTruthy (r.data.bind GmailMessage.id)).orElse fun _ =>
  (jsTruthy (r.message.bind GmailMessage.id)).orElse fun _ =>
  jsTruthy r.messageId

/-- `targetKey` of processor.ts line 58. -/
def targetKeyOf (cfg : AppConfig) (msgId : String) : String :=
  cfg.rawFilesPrefix ++ cfg.workspaceId ++ "/gmail/" ++ msgId ++ ".eml"

/-- `opts.limit ?? Infinity` — `none` models the absent limit
(`Infinity`), under which `counters.processed >= limit` is never true. -/
def limitReached (limit : Option Nat) (processed : Nat) : Bool :=
  match limit with
  | some n => n ≤ processed
  | none => false

/-- How one iteration of the per-record loop body ends. -/
inductive StepOutcome where
  /-- The iteration finished (`continue` or falling off the `try`), the
  loop moves to the next record. -/
  | next (c : Counters) (s : Store)
  /-- The `return counters` of line 40: `processMessages` returns
  immediately with the current counters. -/
  | limitReturn (c : Counters) (s : Store)
  /-- An exception escaped the loop body.  This happens on every error of
  the `try` block: the `catch` handler increments `failed` and then
  evaluates a template literal referencing `msgId`, but `msgId` is a
  `const` declared inside the `try` block and is not in scope in the
  `catch` block (TypeScript error TS2304; when the file is transpiled
  without type checking, a `ReferenceError` is thrown while building the
  `console.warn` argument).  That `ReferenceError` is not caught by
  anything inside `processMessages`, so it aborts the whole run. -/
  | aborted (c : Counters) (s : Store)
deriving Repr, DecidableEq

/-- One iteration of the per-record loop body of processor.ts lines
39-112, for one already-parsed record.  Order of the source: limit check
(line 40), `processed` increment, message-id chain, missing-id branch
(warn + `failed` + `continue`), target-key computation, existence check
(skip branch), extraction + serialization, then dry-run branch or
`PutObject` + `created`.  An extraction error reaches the `catch`
handler, which increments `failed` once and then itself throws (see
`StepOutcome.aborted`). -/
def stepRecord (cfg : AppConfig) (dryRun : Bool) (limit : Option Nat)
    (c : Counters) (s : Store) (record : GmailMessage) : StepOutcome :=
  if limitReached limit c.processed then StepOutcome.limitReturn c s
  else
    let c1 : Counters := { c with processed := c.processed + 1 }
    match procMsgId record with
    | none => StepOutcome.next { c1 with failed := c1.failed + 1 } s
    | some msgId =>
      let targetKey := targetKeyOf cfg msgId
      if existsKey s targetKey then
        StepOutcome.next { c1 with skipped := c1.skipped + 1 } s
      else
        match extractEmail record with
        | Except.error _ => StepOutcome.aborted { c1 with failed := c1.failed + 1 } s
        | Except.ok email =>
          let eml := toEml email
          if dryRun then StepOutcome.next c1 s
          else StepOutcome.next { c1 with created := c1.created + 1 } (putObject s targetKey eml)

/-- The inner `for await (const record of ...)` loop over the parsed
records of one JSONL file. -/
def runRecords (cfg : AppConfig) (dryRun : Bool) (limit : Option Nat) :
    Counters → Store → List GmailMessage → StepOutcome
  | c, s, [] => StepOutcome.next c s
  | c, s, r :: rest =>
    match stepRecord cfg dryRun limit c s r with
    | StepOutcome.next c2 s2 => runRecords cfg dryRun limit c2 s2 rest
    | other => other

/-- The outer `for (const key of keys)` loop of processor.ts lines
36-114: each file contributes its list of parsed records. -/
def runFiles (cfg : AppConfig) (dryRun : Bool) (limit : Option Nat) :
    Counters → Store → List (List GmailMessage) → StepOutcome
  | c, s, [] => StepOutcome.next c s
  | c, s, f :: rest =>
    match runRecords cfg dryRun limit c s f with
    | StepOutcome.next c2 s2 => runFiles cfg dryRun limit c2 s2 rest
    | other => other

/-- How a call of `processMessages` ends. -/
inductive RunResult where
  /-- Both loops completed; the `return counters` of line 116. -/
  | normal (c : Counters) (s : Store)
  /-- The early `return counters` of line 40 when the limit was reached. -/
  | limited (c : Counters) (s : Store)
  /-- The run was aborted by the `ReferenceError` escaping the `catch`
  handler (see `StepOutcome.aborted`); no counters are returned. -/
  | aborted (c : Counters) (s : Store)
deriving Repr, DecidableEq

/-- `processMessages` from processor.ts lines 24-117, over the parsed
records of the listed JSONL files (listing and line parsing are the
reader layer, modelled separately by `readJsonl`).  Counters start at
zero; the store is the external S3 state threaded through the run. -/
def processMessages (cfg : AppConfig) (files : List (List GmailMessage))
    (limit : Option Nat) (dryRun : Bool) (s0 : Store) : RunResult :=
  match runFiles cfg dryRun limit { processed := 0, created := 0, skipped := 0, failed := 0 } s0 files with
  | StepOutcome.next c s => RunResult.normal c s
  | StepOutcome.limitReturn c s => RunResult.limited c s
  | StepOutcome.aborted c s => RunResult.aborted c s

/-- The counters visible in a run result (for an aborted run: the state
of the mutable `counters` object at the moment the exception escaped). -/
def RunResult.counters : RunResult → Counters
  | RunResult.normal c _ => c
  | RunResult.limited c _ => c
  | RunResult.aborted c _ => c

/-- The store contents when the run ends. -/
def RunResult.store : RunResult → Store
  | RunResult.normal _ s => s
  | RunResult.limited _ s => s
  | RunResult.aborted _ s => s

/-!
### Definitions modelled from the spec (for the refinement claims)

These two definitions follow the wording of spec.md, not the source; each
is compared against the source-derived definition in the theorems below.
-/

/-- Modelled from the spec (§4.1): membership in the URL-safe base64
alphabet (letters, digits, `-`, `_`), with `=` admitted as optional
trailing padding. -/
def isB64UrlChar (c : Char) : Bool :=
  let n := c.toNat
  (65 ≤ n && n ≤ 90) || (97 ≤ n && n ≤ 122) || (48 ≤ n && n ≤ 57)
    || c = '-' || c = '_' || c = '='

/-- Modelled from the spec (§4.1): `decode` that fails with `DecodeError`
when a character is outside the URL-safe alphabet or the decoded byte
sequence is not valid UTF-8, and otherwise returns the decoded UTF-8
text.  The source (`base64UrlDecode`) has no failure path; this is the
behaviour the spec ascribes to it. -/
def decodeSpec (s : String) : Except String String :=
  if s.data.all isB64UrlChar then
    if utf8Valid (nodeBase64Bytes (substUrlChars s ++ String.mk (List.replicate ((4 - s.length % 4) % 4) '='))) then
      Except.ok (String.mk (utf8DecodeReplace
        (nodeBase64Bytes (substUrlChars s ++ String.mk (List.replicate ((4 - s.length % 4) % 4) '=')))))
    else Except.error "DecodeError"
  else Except.error "DecodeError"

/-- Modelled from the spec (§4.4): one optional header field emitted as
`Name: value` when the field is present and non-empty, nothing
otherwise. -/
def emitField (name : String) (v : Option String) : List String :=
  match jsTruthy v with
  | some s => [name ++ ": " ++ s]
  | none => []

/-- Modelled from the spec (§4.4): the serialized message as the spec
describes it — optional fields in the fixed order From, To, Cc, Bcc,
Subject, Date, then the synthesized Message-ID header, then the fixed
protocol headers, joined by CRLF, a double-CRLF separator, and the body
verbatim. -/
def serializeSpec (e : ExtractedEmail) : String :=
  String.intercalate "\r\n"
    (emitField "From" e.«from» ++ emitField "To" e.«to» ++ emitField "Cc" e.cc ++
     emitField "Bcc" e.bcc ++ emitField "Subject" e.subject ++ emitField "Date" e.date ++
     ["Message-ID: <" ++ e.messageId ++ "@gmail>", "MIME-Version: 1.0",
      "Content-Type: " ++ e.bodyMime ++ "; charset=\"UTF-8\""]) ++ "\r\n\r\n" ++ e.body

/-!
### Concrete sample data for witnesses and counterexamples
-/

/-- A concrete configuration (the default prefixes of config.ts with
workspace `ws`). -/
def cfg0 : AppConfig :=
  { region := "us-east-1", bucket := "benny-raw-files-test",
    airbytePrefix := "raw/", messagesPrefix := "raw/messages/",
    detailsPrefix := "raw/messages_details/", rawFilesPrefix := "raw/raw-files/",
    workspaceId := "ws", connectorId := "cn" }

/-- A `text/plain` leaf part whose body data is `aGVsbG8`, base64url for
`hello`. -/
def plainPart : GmailPart :=
  GmailPart.mk (some "text/plain") none [] (some { size := some 5, data := some "aGVsbG8" }) []

/-- A `text/html` leaf part whose body data is `PGI+aGk8L2I+`, base64 for
`<b>hi</b>`. -/
def htmlPart : GmailPart :=
  GmailPart.mk (some "text/html") none [] (some { size := some 9, data := some "PGI+aGk8L2I+" }) []

/-- A well-formed record: top-level id `m1`, a Subject header, and a
`text/plain` payload. -/
def goodRecord : GmailMessage :=
  GmailMessage.mk (some "m1") none none none
    (some (GmailPart.mk (some "text/plain") none [{ name := "Subject", value := "Hi" }]
      (some { size := some 5, data := some "aGVsbG8" }) []))
    none none none

/-- A record with a top-level id `m1` but no payload at all: the
message-id chain of the processor succeeds, while `extractEmail` throws
`No body found`. -/
def badRecord : GmailMessage :=
  GmailMessage.mk (some "m1") none none none none none none none

/-- The extracted form of `goodRecord`. -/
def goodEmail : ExtractedEmail :=
  { messageId := "m1", subject := some "Hi", «from» := none, «to» := none,
    cc := none, bcc := none, date := none, bodyMime := "text/plain",
    body := "hello", snippet := none }

/-- A record carrying a top-level id `outer` and an Airbyte envelope with
a different id `inner` and a `text/plain` payload. -/
def envelopeRecord : GmailMessage :=
  GmailMessage.mk (some "outer")
    none
    (some (GmailMessage.mk (some "inner") none none none (some plainPart) none none none))
    none none none none none

/-!
### Helper lemmas about one loop iteration
-/

/-- A record whose message id resolves, whose target key is absent and
whose extraction succeeds is written (when not in dry-run mode and with
no limit in the way): `processed` and `created` increase and the
serialized message is stored under the target key. -/
theorem stepRecord_creates (cfg : AppConfig) (c : Counters) (s : Store)
    (r : GmailMessage) (m : String) (e : ExtractedEmail)
    (hm : procMsgId r = some m)
    (habs : existsKey s (targetKeyOf cfg m) = false)
    (hex : extractEmail r = Except.ok e) :
    stepRecord cfg false none c s r =
      StepOutcome.next { c with processed := c.processed + 1, created := c.created + 1 }
        (putObject s (targetKeyOf cfg m) (toEml e)) := by
  simp [stepRecord, limitReached, hm, habs, hex]

/-- A record whose message id resolves to a key that already exists is
counted skipped, with no store change, and without the extraction result
playing any role. -/
theorem stepRecord_skips (cfg : AppConfig) (dryRun : Bool) (limit : Option Nat)
    (c : Counters) (s : Store) (r : GmailMessage) (m : String)
    (hl : limitReached limit c.processed = false)
    (hm : procMsgId r = some m)
    (hex : existsKey s (targetKeyOf cfg m) = true) :
    stepRecord cfg dryRun limit c s r =
      StepOutcome.next { c with processed := c.processed + 1, skipped := c.skipped + 1 } s := by
  simp [stepRecord, hl, hm, hex]

/-- In dry-run mode a creatable record changes no counter other than
`processed` and performs no write. -/
theorem stepRecord_dryRun (cfg : AppConfig) (c : Counters) (s : Store)
    (r : GmailMessage) (m : String) (e : ExtractedEmail)
    (hm : procMsgId r = some m)
    (habs : existsKey s (targetKeyOf cfg m) = false)
    (hex : extractEmail r = Except.ok e) :
    stepRecord cfg true none c s r =
      StepOutcome.next { c with processed := c.processed + 1 } s := by
  simp [stepRecord, limitReached, hm, habs, hex]

/-- Counters carried by a step outcome (the state of the mutable
`counters` object when the iteration ends). -/
def StepOutcome.counters : StepOutcome → Counters
  | StepOutcome.next c _ => c
  | StepOutcome.limitReturn c _ => c
  | StepOutcome.aborted c _ => c

/-- One iteration never pushes `processed` past a limit it was below. -/
theorem stepRecord_processed_le (cfg : AppConfig) (dryRun : Bool) (n : Nat)
    (c : Counters) (s : Store) (r : GmailMessage) (h : c.processed ≤ n) :
    (stepRecord cfg dryRun (some n) c s r).counters.processed ≤ n := by
  rcases hl : limitReached (some n) c.processed with _ | _
  · have hlt : c.processed < n := by
      simp [limitReached] at hl
      omega
    unfold stepRecord
    rw [hl]
    rcases hm : procMsgId r with _ | m
    · simpa [StepOutcome.counters] using hlt
    · simp only [Bool.false_eq_true, if_false]
      rcases he : existsKey s (targetKeyOf cfg m) with _ | _ <;>
        simp only [he, Bool.false_eq_true, if_false, if_true]
      · rcases hex : extractEmail r with e | e <;> simp only []
        · simpa [StepOutcome.counters] using hlt
        · cases dryRun <;> simpa [StepOutcome.counters] using hlt
      · simpa [StepOutcome.counters] using hlt
  · unfold stepRecord
    rw [hl]
    simpa [StepOutcome.counters] using h

/-- The record loop preserves the bound on `processed`. -/
theorem runRecords_processed_le (cfg : AppConfig) (dryRun : Bool) (n : Nat)
    (rs : List GmailMessage) :
    ∀ (c : Counters) (s : Store), c.processed ≤ n →
      (runRecords cfg dryRun (some n) c s rs).counters.processed ≤ n := by
  induction rs with
  | nil => intro c s h; simpa [runRecords, StepOutcome.counters] using h
  | cons r rest ih =>
    intro c s h
    have hstep := stepRecord_processed_le cfg dryRun n c s r h
    unfold runRecords
    rcases hst : stepRecord cfg dryRun (some n) c s r with ⟨c2, s2⟩ | ⟨c2, s2⟩ | ⟨c2, s2⟩ <;>
      rw [hst] at hstep <;> simp only [StepOutcome.counters] at hstep ⊢
    · exact ih c2 s2 hstep
    · exact hstep
    · exact hstep

/-- The file loop preserves the bound on `processed`. -/
theorem runFiles_processed_le (cfg : AppConfig) (dryRun : Bool) (n : Nat)
    (fs : List (List GmailMessage)) :
    ∀ (c : Counters) (s : Store), c.processed ≤ n →
      (runFiles cfg dryRun (some n) c s fs).counters.processed ≤ n := by
  induction fs with
  | nil => intro c s h; simpa [runFiles, StepOutcome.counters] using h
  | cons f rest ih =>
    intro c s h
    have hrec := runRecords_processed_le cfg dryRun n f c s h
    unfold runFiles
    rcases hr : runRecords cfg dryRun (some n) c s f with ⟨c2, s2⟩ | ⟨c2, s2⟩ | ⟨c2, s2⟩ <;>
      rw [hr] at hrec <;> simp only [StepOutcome.counters] at hrec ⊢
    · exact ih c2 s2 hrec
    · exact hrec
    · exact hrec

/-!
### The claims
-/

/-- C1: the claim states that every per-record error is caught at the
per-record boundary, increments `failed` once, logs the file key and
identifier, and lets the run continue with the next record.  The intent
of the `try`/`catch` of processor.ts lines 39-112 (and §7 of the spec)
is exactly that, but the handler itself is broken: it reads `msgId`,
which is a `const` declared inside the `try` block and not in scope in
the `catch` block.  TypeScript rejects the file (TS2304); when the file
is run through a transpile-only toolchain (the README runs it with bun),
the handler increments `failed` and then throws a `ReferenceError`
while building the log message, so the first per-record error aborts the
whole run and the second record below is never reached.  The first
conjunct evaluates the run on such an input; the second shows the same
second record processes fine when the failing record is absent. -/
theorem c1_per_record_error_aborts_run :
    processMessages cfg0 [[badRecord, goodRecord]] none false [] =
      RunResult.aborted { processed := 1, created := 0, skipped := 0, failed := 1 } [] ∧
    (processMessages cfg0 [[goodRecord]] none false []).counters =
      { processed := 1, created := 1, skipped := 0, failed := 0 } :=
  ⟨rfl, rfl⟩

/-- C2 (counterexample): the claim states that with `dryRun` set, a
creatable record still increments `created` exactly as a real write
would.  In processor.ts lines 93-106 the increment `counters.created += 1`
sits in the `else` branch of `if (dryRun)`, so a dry run increments
nothing but `processed`: on a one-record creatable input the dry run
ends with `created = 0` while the real run ends with `created = 1`. -/
theorem c2_dry_run_created_cex :
    processMessages cfg0 [[goodRecord]] none true [] =
      RunResult.normal { processed := 1, created := 0, skipped := 0, failed := 0 } [] ∧
    (processMessages cfg0 [[goodRecord]] none true []).counters.created ≠ 1 ∧
    (processMessages cfg0 [[goodRecord]] none false []).counters.created = 1 :=
  ⟨rfl, by decide, rfl⟩

/-- C2 (amended): when `dryRun` is true, a record whose target key is
absent and whose extraction succeeds performs no write and increments no
counter other than `processed`; in particular `created` is not
incremented (dry-run records are visible only in `processed`). -/
theorem c2_dry_run_amended (cfg : AppConfig) (c : Counters) (s : Store)
    (r : GmailMessage) (m : String) (e : ExtractedEmail)
    (hm : procMsgId r = some m)
    (habs : existsKey s (targetKeyOf cfg m) = false)
    (hex : extractEmail r = Except.ok e) :
    stepRecord cfg true none c s r =
      StepOutcome.next { c with processed := c.processed + 1 } s :=
  stepRecord_dryRun cfg c s r m e hm habs hex

/-- C2 (witness): the amended statement evaluated on the sample record. -/
theorem c2_dry_run_amended_witness :
    procMsgId goodRecord = some "m1" ∧
    existsKey [] (targetKeyOf cfg0 "m1") = false ∧
    extractEmail goodRecord = Except.ok goodEmail ∧
    stepRecord cfg0 true none { processed := 0, created := 0, skipped := 0, failed := 0 } [] goodRecord =
      StepOutcome.next { processed := 1, created := 0, skipped := 0, failed := 0 } [] :=
  ⟨rfl, rfl, rfl,
    c2_dry_run_amended cfg0 { processed := 0, created := 0, skipped := 0, failed := 0 } []
      goodRecord "m1" goodEmail rfl rfl rfl⟩

/-- A store that already holds the target key of message `m1` under
`cfg0`. -/
def storeWithM1 : Store := [(targetKeyOf cfg0 "m1", "previous content")]

/-- C3 (counterexample): the claim states that the Extractor and
Serializer run before the existence check, so extraction is attempted
even for records whose target key already exists.  In processor.ts the
existence check (lines 60-65) precedes `extractEmail` (line 67):
`badRecord` has no body, its extraction throws `No body found`, yet with
its target key already present the record ends as a clean skip — which
could not happen if extraction were attempted first (the error would
reach the catch handler instead of the skip branch). -/
theorem c3_gate_before_extract_cex :
    extractEmail badRecord = Except.error "No body found" ∧
    stepRecord cfg0 false none { processed := 0, created := 0, skipped := 0, failed := 0 }
        storeWithM1 badRecord =
      StepOutcome.next { processed := 1, created := 0, skipped := 1, failed := 0 } storeWithM1 ∧
    processMessages cfg0 [[badRecord]] none false storeWithM1 =
      RunResult.normal { processed := 1, created := 0, skipped := 1, failed := 0 } storeWithM1 :=
  ⟨rfl, rfl, rfl⟩

/-- C3 (amended): the Publication Gate existence check at the target key
happens before extraction; a record whose target key already exists is
counted skipped with no store change, without the Extractor or
Serializer being run (the outcome does not depend on the extraction
result in any way). -/
theorem c3_gate_before_extract_amended (cfg : AppConfig) (dryRun : Bool)
    (limit : Option Nat) (c : Counters) (s : Store) (r : GmailMessage) (m : String)
    (hl : limitReached limit c.processed = false)
    (hm : procMsgId r = some m)
    (hex : existsKey s (targetKeyOf cfg m) = true) :
    stepRecord cfg dryRun limit c s r =
      StepOutcome.next { c with processed := c.processed + 1, skipped := c.skipped + 1 } s :=
  stepRecord_skips cfg dryRun limit c s r m hl hm hex

/-- C3 (witness): the amended statement evaluated on a record whose
extraction would fail, showing the skip happens regardless. -/
theorem c3_gate_before_extract_witness :
    limitReached none (0 : Nat) = false ∧
    procMsgId badRecord = some "m1" ∧
    existsKey storeWithM1 (targetKeyOf cfg0 "m1") = true ∧
    stepRecord cfg0 false none { processed := 0, created := 0, skipped := 0, failed := 0 }
        storeWithM1 badRecord =
      StepOutcome.next { processed := 1, created := 0, skipped := 1, failed := 0 } storeWithM1 :=
  ⟨rfl, rfl, rfl,
    c3_gate_before_extract_amended cfg0 false none
      { processed := 0, created := 0, skipped := 0, failed := 0 } storeWithM1 badRecord "m1"
      rfl rfl rfl⟩

/-- Padding characters are outside the base64 alphabet and contribute no
sextet. -/
theorem filterMap_b64Val_replicate (n : Nat) :
    List.filterMap b64Val (List.replicate n '=') = [] := by
  have hval : b64Val '=' = none := rfl
  induction n with
  | zero => rfl
  | succ k ih => simp [List.replicate_succ, List.filterMap_cons, hval, ih]

/-- Appending padding characters leaves the decoded bytes unchanged. -/
theorem nodeBase64Bytes_append_pad (s : String) (n : Nat) :
    nodeBase64Bytes (s ++ String.mk (List.replicate n '=')) = nodeBase64Bytes s := by
  obtain ⟨a⟩ := s
  have h1 : (String.mk a ++ String.mk (List.replicate n '=')).data = a ++ List.replicate n '=' := rfl
  unfold nodeBase64Bytes
  rw [h1, List.filterMap_append, filterMap_b64Val_replicate, List.append_nil]

/-- C4 (counterexample): the claim states that an input holding a
character outside the URL-safe base64 alphabet makes decode fail with a
`DecodeError`.  The source function `base64UrlDecode` has no failure
path at all — `Buffer.from(s, "base64")` skips non-alphabet characters
and `toString("utf8")` replaces invalid UTF-8, neither throws — so at
the input `!` (not in any base64 alphabet) the spec-modelled decoder
demands an error while the code returns the empty string. -/
theorem c4_decode_never_fails_cex :
    decodeSpec "!" = Except.error "DecodeError" ∧ base64UrlDecode "!" = "" :=
  ⟨rfl, rfl⟩

/-- C4 (amended): decode never fails.  For every input on which the
spec-modelled decoder succeeds, the code returns exactly that text; and
for every input whatsoever the code returns the UTF-8-with-replacement
reading of the base64 bytes of the substituted input, with characters
outside the alphabet ignored and the appended padding irrelevant. -/
theorem c4_decode_total_amended :
    (∀ s t, decodeSpec s = Except.ok t → base64UrlDecode s = t) ∧
    (∀ s, base64UrlDecode s =
      String.mk (utf8DecodeReplace (nodeBase64Bytes (substUrlChars s)))) := by
  constructor
  · intro s t h
    unfold decodeSpec at h
    by_cases h1 : s.data.all isB64UrlChar = true
    · rw [if_pos h1] at h
      by_cases h2 : utf8Valid (nodeBase64Bytes (substUrlChars s ++ String.mk (List.replicate ((4 - s.length % 4) % 4) '='))) = true
      · rw [if_pos h2] at h
        exact (Except.ok.inj h)
      · rw [if_neg h2] at h
        exact absurd h (by simp)
    · rw [if_neg h1] at h
      exact absurd h (by simp)
  · intro s
    show String.mk (utf8DecodeReplace (nodeBase64Bytes
      (substUrlChars s ++ String.mk (List.replicate ((4 - s.length % 4) % 4) '=')))) = _
    rw [nodeBase64Bytes_append_pad]

/-- C4 (witness): the agreement direction evaluated on a concrete
spec-valid input. -/
theorem c4_decode_total_amended_witness :
    decodeSpec "aGVsbG8" = Except.ok "hello" ∧ base64UrlDecode "aGVsbG8" = "hello" :=
  ⟨rfl, c4_decode_total_amended.1 "aGVsbG8" "hello" rfl⟩

/-- C5: body-part selection order of `findPart` (preferHtml true): a
non-multipart part with truthy inline body data is returned immediately,
whatever its children; otherwise the first direct `text/html` child with
body data wins (whatever its position relative to `text/plain`
siblings); otherwise the first direct `text/plain` child with body data;
otherwise the children are searched depth-first left-to-right and the
first non-null result is returned. -/
theorem c5_findPart_selection_order
    (mt fn : Option String) (hd : List GmailHeader) (bd : Option GmailBody)
    (ps : List GmailPart) (preferHtml : Bool) (d : String) :
    (mimeIsMultipart mt = false → jsTruthy (bd.bind GmailBody.data) = some d →
      findPart (some (GmailPart.mk mt fn hd bd ps)) preferHtml =
        some { mime := (jsTruthy mt).getD "text/plain", data := d }) ∧
    ((mimeIsMultipart mt = true ∨ jsTruthy (bd.bind GmailBody.data) = none) →
      findDirect "text/html" ps = some d →
      findPart (some (GmailPart.mk mt fn hd bd ps)) true =
        some { mime := "text/html", data := d }) ∧
    ((mimeIsMultipart mt = true ∨ jsTruthy (bd.bind GmailBody.data) = none) →
      findDirect "text/html" ps = none → findDirect "text/plain" ps = some d →
      findPart (some (GmailPart.mk mt fn hd bd ps)) true =
        some { mime := "text/plain", data := d }) ∧
    ((mimeIsMultipart mt = true ∨ jsTruthy (bd.bind GmailBody.data) = none) →
      findDirect "text/html" ps = none → findDirect "text/plain" ps = none →
      findPart (some (GmailPart.mk mt fn hd bd ps)) true = findFirst ps true) ∧
    (∀ (p : GmailPart) (rest : List GmailPart),
      findFirst (p :: rest) preferHtml =
        match findPart (some p) preferHtml with
        | some r => some r
        | none => findFirst rest preferHtml) := by
  refine ⟨?_, ?_, ?_, ?_, ?_⟩
  · intro h1 h2
    simp [findPart, findPartGo, h1, h2]
  · rintro (h1 | h1) h2 <;> simp [findPart, findPartGo, h1, h2]
  · rintro (h1 | h1) h2 h3 <;> simp [findPart, findPartGo, h1, h2, h3]
  · rintro (h1 | h1) h2 h3 <;> simp [findPart, findPartGo, h1, h2, h3]
  · intro p rest
    cases hfp : findPartGo p preferHtml <;> simp [findFirst, findPart, hfp]

/-- C5 (witness): a multipart container whose `text/plain` child comes
before its `text/html` child still selects the html child. -/
theorem c5_findPart_selection_order_witness :
    (mimeIsMultipart (some "multipart/alternative") = true ∨
      jsTruthy ((none : Option GmailBody).bind GmailBody.data) = none) ∧
    findDirect "text/html" [plainPart, htmlPart] = some "PGI+aGk8L2I+" ∧
    findPart (some (GmailPart.mk (some "multipart/alternative") none [] none
        [plainPart, htmlPart])) true =
      some { mime := "text/html", data := "PGI+aGk8L2I+" } :=
  ⟨Or.inl rfl, rfl,
    (c5_findPart_selection_order (some "multipart/alternative") none [] none
      [plainPart, htmlPart] true "PGI+aGk8L2I+").2.1 (Or.inl rfl) rfl⟩

/-- C6: the target key is the stated pure concatenation of
rawFilesPrefix, workspaceId, the `/gmail/` segment, the message id and
the `.eml` extension; and processing the same creatable message twice in
sequence against the same store yields Created with exactly one write,
then Skipped with the store unchanged. -/
theorem c6_target_key_and_idempotence
    (cfg : AppConfig) (c : Counters) (s : Store) (r : GmailMessage)
    (m : String) (e : ExtractedEmail)
    (hm : procMsgId r = some m)
    (habs : existsKey s (targetKeyOf cfg m) = false)
    (hex : extractEmail r = Except.ok e) :
    targetKeyOf cfg m =
      cfg.rawFilesPrefix ++ cfg.workspaceId ++ "/gmail/" ++ m ++ ".eml" ∧
    stepRecord cfg false none c s r =
      StepOutcome.next { c with processed := c.processed + 1, created := c.created + 1 }
        (putObject s (targetKeyOf cfg m) (toEml e)) ∧
    stepRecord cfg false none
        { c with processed := c.processed + 1, created := c.created + 1 }
        (putObject s (targetKeyOf cfg m) (toEml e)) r =
      StepOutcome.next
        { c with processed := c.processed + 1 + 1, created := c.created + 1,
                 skipped := c.skipped + 1 }
        (putObject s (targetKeyOf cfg m) (toEml e)) := by
  refine ⟨rfl, stepRecord_creates cfg c s r m e hm habs hex, ?_⟩
  have hex2 : existsKey (putObject s (targetKeyOf cfg m) (toEml e)) (targetKeyOf cfg m) = true := by
    simp [existsKey, putObject]
  exact stepRecord_skips cfg false none
    { c with processed := c.processed + 1, created := c.created + 1 }
    (putObject s (targetKeyOf cfg m) (toEml e)) r m (by simp [limitReached]) hm hex2

/-- C6 (witness): both steps evaluated on the sample record against an
empty store. -/
theorem c6_target_key_and_idempotence_witness :
    procMsgId goodRecord = some "m1" ∧
    existsKey [] (targetKeyOf cfg0 "m1") = false ∧
    extractEmail goodRecord = Except.ok goodEmail ∧
    targetKeyOf cfg0 "m1" = "raw/raw-files/ws/gmail/m1.eml" ∧
    stepRecord cfg0 false none { processed := 0, created := 0, skipped := 0, failed := 0 }
        [] goodRecord =
      StepOutcome.next { processed := 1, created := 1, skipped := 0, failed := 0 }
        (putObject [] (targetKeyOf cfg0 "m1") (toEml goodEmail)) ∧
    stepRecord cfg0 false none { processed := 1, created := 1, skipped := 0, failed := 0 }
        (putObject [] (targetKeyOf cfg0 "m1") (toEml goodEmail)) goodRecord =
      StepOutcome.next { processed := 2, created := 1, skipped := 1, failed := 0 }
        (putObject [] (targetKeyOf cfg0 "m1") (toEml goodEmail)) := by
  have h := c6_target_key_and_idempotence cfg0
    { processed := 0, created := 0, skipped := 0, failed := 0 } [] goodRecord "m1" goodEmail
    rfl rfl rfl
  exact ⟨rfl, rfl, rfl, rfl, h.2.1, h.2.2⟩

/-- C7: with a finite numeric limit n, the check `processed >= limit` at
the top of the loop body runs before the `processed` increment, so a
record seen with the limit already reached makes `processMessages`
return the current counters immediately; and the final `processed` of a
run never exceeds n. -/
theorem c7_limit_enforcement (cfg : AppConfig) (files : List (List GmailMessage))
    (dryRun : Bool) (s0 : Store) (n : Nat) :
    (∀ (c : Counters) (s : Store) (r : GmailMessage), n ≤ c.processed →
      stepRecord cfg dryRun (some n) c s r = StepOutcome.limitReturn c s) ∧
    (processMessages cfg files (some n) dryRun s0).counters.processed ≤ n := by
  constructor
  · intro c s r h
    have hl : limitReached (some n) c.processed = true := by
      simp [limitReached]
      omega
    unfold stepRecord
    rw [hl]
    simp
  · have h0 := runFiles_processed_le cfg dryRun n files
      { processed := 0, created := 0, skipped := 0, failed := 0 } s0 (Nat.zero_le n)
    unfold processMessages
    rcases hr : runFiles cfg dryRun (some n)
        { processed := 0, created := 0, skipped := 0, failed := 0 } s0 files with
      ⟨c2, s2⟩ | ⟨c2, s2⟩ | ⟨c2, s2⟩ <;>
      rw [hr] at h0 <;> simpa [RunResult.counters, StepOutcome.counters] using h0

/-- C7 (witness): the immediate-return branch and the final bound
evaluated concretely (three records, limit 1). -/
theorem c7_limit_enforcement_witness :
    (3 : Nat) ≤ (5 : Nat) ∧
    stepRecord cfg0 false (some 3)
        { processed := 5, created := 0, skipped := 0, failed := 0 } [] goodRecord =
      StepOutcome.limitReturn { processed := 5, created := 0, skipped := 0, failed := 0 } [] ∧
    (processMessages cfg0 [[goodRecord, goodRecord, goodRecord]] (some 1) false []).counters.processed ≤ 1 :=
  ⟨by decide,
    (c7_limit_enforcement cfg0 [] false [] 3).1
      { processed := 5, created := 0, skipped := 0, failed := 0 } [] goodRecord (by decide),
    (c7_limit_enforcement cfg0 [[goodRecord, goodRecord, goodRecord]] false [] 1).2⟩

/-- C8: for every extracted message, `toEml` emits exactly the layout
the spec describes — the present, non-empty optional fields as
`Name: value` in the order From, To, Cc, Bcc, Subject, Date, then
`Message-ID: <id@gmail>`, `MIME-Version: 1.0` and the Content-Type line,
joined by CRLF, a double-CRLF separator, and the body verbatim. -/
theorem c8_toEml_format (e : ExtractedEmail) : toEml e = serializeSpec e := by
  unfold toEml serializeSpec
  cases h1 : jsTruthy e.«from» <;> cases h2 : jsTruthy e.«to» <;>
    cases h3 : jsTruthy e.cc <;> cases h4 : jsTruthy e.bcc <;>
    cases h5 : jsTruthy e.subject <;> cases h6 : jsTruthy e.date <;>
    simp [emitField, h1, h2, h3, h4, h5, h6]

/-- C9: the records yielded by the reader are exactly the successful
parses of the non-blank trimmed lines, in input order; reading a
concatenation of line blocks yields the concatenation of their records
and of their warnings (a failing line never terminates the stream or
suppresses later lines); and every warning names the file key. -/
theorem c9_readJsonl_stream {T : Type} (parse : String → Except String T) (key : String) :
    (∀ lines, (readJsonl parse key lines).1 =
      ((lines.map jsTrim).filter (fun t => t ≠ "")).filterMap (fun t => (parse t).toOption)) ∧
    (∀ l1 l2, readJsonl parse key (l1 ++ l2) =
      ((readJsonl parse key l1).1 ++ (readJsonl parse key l2).1,
       (readJsonl parse key l1).2 ++ (readJsonl parse key l2).2)) ∧
    (∀ lines w, w ∈ (readJsonl parse key lines).2 →
      ∃ e, w = "Failed to parse JSONL line in " ++ key ++ ": " ++ e) := by
  refine ⟨?_, ?_, ?_⟩
  · intro lines
    induction lines with
    | nil => rfl
    | cons l rest ih =>
      by_cases ht : jsTrim l = ""
      · simp [readJsonl, ht, ih]
      · rcases hp : parse (jsTrim l) with er | v <;>
          simp [readJsonl, ht, hp, Except.toOption, ih]
  · intro l1 l2
    induction l1 with
    | nil => simp [readJsonl]
    | cons l rest ih =>
      by_cases ht : jsTrim l = ""
      · simp [readJsonl, ht, ih]
      · rcases hp : parse (jsTrim l) with er | v <;> simp [readJsonl, ht, hp, ih]
  · intro lines
    induction lines with
    | nil => intro w hw; simp [readJsonl] at hw
    | cons l rest ih =>
      intro w hw
      by_cases ht : jsTrim l = ""
      · rw [show readJsonl parse key (l :: rest) = readJsonl parse key rest by
          simp [readJsonl, ht]] at hw
        exact ih w hw
      · rcases hp : parse (jsTrim l) with er | v
        · simp [readJsonl, ht, hp] at hw
          rcases hw with rfl | hw2
          · exact ⟨er, rfl⟩
          · exact ih w hw2
        · simp [readJsonl, ht, hp] at hw
          exact ih w hw

/-- The extracted form of `envelopeRecord`: the identifier comes from
the envelope, the snippet from the outer record. -/
def envelopeEmail : ExtractedEmail :=
  { messageId := "inner", subject := none, «from» := none, «to» := none,
    cc := none, bcc := none, date := none, bodyMime := "text/plain",
    body := "hello", snippet := none }

/-- A concrete stand-in for `JSON.parse` over one line. -/
def parseDemo (s : String) : Except String Nat :=
  if s = "1" then Except.ok 1 else if s = "2" then Except.ok 2 else Except.error "bad"

/-- C9 (witness): the file-naming property applied to a concrete stream
containing a blank line and a malformed line. -/
theorem c9_readJsonl_stream_witness :
    (readJsonl parseDemo "f.jsonl" ["1", "  ", "x", "2"]).1 = [1, 2] ∧
    "Failed to parse JSONL line in f.jsonl: bad" ∈
      (readJsonl parseDemo "f.jsonl" ["1", "  ", "x", "2"]).2 ∧
    (∃ e, "Failed to parse JSONL line in f.jsonl: bad" =
      "Failed to parse JSONL line in " ++ "f.jsonl" ++ ": " ++ e) :=
  ⟨rfl, by decide,
    (c9_readJsonl_stream parseDemo "f.jsonl").2.2 ["1", "  ", "x", "2"]
      "Failed to parse JSONL line in f.jsonl: bad" (by decide)⟩

/-- C10: a record with a truthy top-level id `a` and an envelope core
whose id is `b` is published under the target key derived from `a` (the
message-id chain of the processor starts at `record.id`), while the
extracted message — and through `toEml` the Message-ID header of the
stored content — carries `b` (the Extractor reads
`(_airbyte_data ?? data ?? msg).id`), so for a ≠ b the key and the
stored identifier disagree. -/
theorem c10_key_id_disagreement
    (cfg : AppConfig) (c : Counters) (s : Store) (r : GmailMessage)
    (a b : String) (e : ExtractedEmail)
    (hid : jsTruthy r.id = some a)
    (hcore : (coreOf r).id = some b)
    (hex : extractEmail r = Except.ok e)
    (habs : existsKey s (targetKeyOf cfg a) = false) :
    procMsgId r = some a ∧ e.messageId = b ∧
    stepRecord cfg false none c s r =
      StepOutcome.next { c with processed := c.processed + 1, created := c.created + 1 }
        (putObject s (targetKeyOf cfg a) (toEml e)) := by
  have hpm : procMsgId r = some a := by
    unfold procMsgId
    rw [hid]
    rfl
  have hmid : e.messageId = b := by
    have hex2 := hex
    simp only [extractEmail, hcore] at hex2
    by_cases hb : b = ""
    · rw [hb] at hex2
      simp [jsTruthy] at hex2
    · simp only [jsTruthy, if_neg hb] at hex2
      rcases hfp : findPart (coreOf r).payload true with _ | part <;> rw [hfp] at hex2
      · simp at hex2
      · obtain ⟨em, es, ef, et, ec, ebc, ed, ebm, ebody, esn⟩ := e
        simp [ExtractedEmail.mk.injEq] at hex2
        exact hex2.1.symm
  exact ⟨hpm, hmid, stepRecord_creates cfg c s r a e hpm habs hex⟩

/-- C10 (witness): the disagreement evaluated on a concrete record with
top-level id `outer` and envelope id `inner`. -/
theorem c10_key_id_disagreement_witness :
    jsTruthy envelopeRecord.id = some "outer" ∧
    (coreOf envelopeRecord).id = some "inner" ∧
    extractEmail envelopeRecord = Except.ok envelopeEmail ∧
    (procMsgId envelopeRecord = some "outer" ∧
      envelopeEmail.messageId = "inner" ∧
      stepRecord cfg0 false none { processed := 0, created := 0, skipped := 0, failed := 0 }
          [] envelopeRecord =
        StepOutcome.next { processed := 1, created := 1, skipped := 0, failed := 0 }
          (putObject [] (targetKeyOf cfg0 "outer") (toEml envelopeEmail))) :=
  ⟨rfl, rfl, rfl,
    c10_key_id_disagreement cfg0 { processed := 0, created := 0, skipped := 0, failed := 0 }
      [] envelopeRecord "outer" "inner" envelopeEmail rfl rfl rfl rfl⟩

end GmailIngest
